import Mathlib

/-!
Verification development for the STYLE-SENCSE-GENERATIVE recommendation
service (a single Flask backend, `project/app.py`).  The Python code is
shallowly embedded below: JSON values are an inductive type, Python
truthiness and `dict.get` are explicit functions, `json.loads` is a
fueled recursive-descent parser over `List Char` (numbers are modelled
as integers; the concrete payloads of interest contain no floats),
exceptions are `Except` values, and `random.shuffle` is an arbitrary
function constrained to be a permutation in the theorems that need it.
-/

namespace StyleSense

/-- JSON values as produced by `json.loads`.  Objects are association
lists with unique keys (the parser inserts with replacement, matching
Python dict semantics); numbers are modelled as integers. -/
inductive Json where
  | null : Json
  | bool (b : Bool) : Json
  | num (n : Int) : Json
  | str (s : String) : Json
  | arr (xs : List Json) : Json
  | obj (kvs : List (String × Json)) : Json

/-- Python truthiness of a JSON value (`bool(x)`). -/
def Json.truthy : Json → Bool
  | .null => false
  | .bool b => b
  | .num n => n != 0
  | .str s => !s.isEmpty
  | .arr xs => !xs.isEmpty
  | .obj kvs => !kvs.isEmpty

/-- Python `d.get(k)` on a JSON object body: `none` models Python `None`. -/
def jget (kvs : List (String × Json)) (k : String) : Option Json :=
  (kvs.find? (fun p => p.1 == k)).map Prod.snd

/-- Field access on an arbitrary JSON value; `none` when the value is
not an object or lacks the key. -/
def jgetJ (j : Json) (k : String) : Option Json :=
  match j with
  | .obj kvs => jget kvs k
  | _ => none

/-- Truthiness of an optional JSON value (Python `x` where `x` may be `None`). -/
def optTruthy : Option Json → Bool
  | some j => j.truthy
  | none => false

/-- The opening brace character. -/
def lbrace : Char := Char.ofNat 123

/-- The closing brace character. -/
def rbrace : Char := Char.ofNat 125

/-- JSON whitespace skipping. -/
def skipWs : List Char → List Char
  | [] => []
  | c :: cs =>
    if c = ' ' || c = '\n' || c = '\t' || c = '\r' then skipWs cs else c :: cs

/-- Single-character JSON string escapes. -/
def escChar (c : Char) : Option Char :=
  if c = '\"' then some '\"'
  else if c = '\\' then some '\\'
  else if c = '/' then some '/'
  else if c = 'b' then some (Char.ofNat 8)
  else if c = 'f' then some (Char.ofNat 12)
  else if c = 'n' then some '\n'
  else if c = 'r' then some '\r'
  else if c = 't' then some '\t'
  else none

/-- Value of a hex digit, written over the code point directly. -/
def hexVal (c : Char) : Option Nat :=
  let n := c.toNat
  if 48 ≤ n && n ≤ 57 then some (n - 48)
  else if 97 ≤ n && n ≤ 102 then some (n - 87)
  else if 65 ≤ n && n ≤ 70 then some (n - 55)
  else none

/-- Body of a JSON string after the opening quote: returns the decoded
characters and the remaining input after the closing quote. -/
def parseStrChars : List Char → Option (List Char × List Char)
  | [] => none
  | c :: rest =>
    if c = '\"' then some ([], rest)
    else if c = '\\' then
      match rest with
      | [] => none
      | e :: rest2 =>
        match escChar e with
        | some ec => (parseStrChars rest2).map (fun p => (ec :: p.1, p.2))
        | none =>
          if e = 'u' then
            match rest2 with
            | h1 :: h2 :: h3 :: h4 :: rest3 =>
              match hexVal h1, hexVal h2, hexVal h3, hexVal h4 with
              | some a, some b, some c3, some d =>
                (parseStrChars rest3).map
                  (fun p => (Char.ofNat (((a * 16 + b) * 16 + c3) * 16 + d) :: p.1, p.2))
              | _, _, _, _ => none
            | _ => none
          else none
    else if c.toNat < 32 then none
    else (parseStrChars rest).map (fun p => (c :: p.1, p.2))

/-- Longest digit prefix. -/
def takeDigits : List Char → (List Char × List Char)
  | [] => ([], [])
  | c :: cs =>
    if '0' ≤ c && c ≤ '9' then
      let p := takeDigits cs
      (c :: p.1, p.2)
    else ([], c :: cs)

/-- Numeric value of a digit list. -/
def digitsToNat : List Char → Nat → Nat
  | [], acc => acc
  | c :: cs, acc => digitsToNat cs (acc * 10 + (c.toNat - '0'.toNat))

/-- JSON integer literal (leading zeros rejected; a fraction or exponent
is not modelled and makes the parse fail). -/
def parseNumber (cs : List Char) : Option (Json × List Char) :=
  let (neg, cs1) :=
    match cs with
    | '-' :: rest => (true, rest)
    | _ => (false, cs)
  match takeDigits cs1 with
  | ([], _) => none
  | (d :: ds, rest) =>
    if d = '0' && !ds.isEmpty then none
    else
      match rest with
      | e :: _ =>
        if e = '.' || e = 'e' || e = 'E' then none
        else
          let n : Int := Int.ofNat (digitsToNat (d :: ds) 0)
          some (.num (if neg then -n else n), rest)
      | [] =>
        let n : Int := Int.ofNat (digitsToNat (d :: ds) 0)
        some (.num (if neg then -n else n), [])

/-- Insert a key/value pair into an object, replacing an existing key in
place (Python dict update semantics). -/
def insertKV (kvs : List (String × Json)) (k : String) (v : Json) :
    List (String × Json) :=
  if kvs.any (fun p => p.1 == k) then
    kvs.map (fun p => if p.1 == k then (k, v) else p)
  else kvs ++ [(k, v)]

mutual

/-- Fueled JSON value parser (recursive descent). -/
def parseValue : Nat → List Char → Option (Json × List Char)
  | 0, _ => none
  | fuel + 1, cs =>
    match skipWs cs with
    | [] => none
    | c :: rest =>
      if c = '\"' then
        (parseStrChars rest).map (fun p => (.str (String.mk p.1), p.2))
      else if c = lbrace then
        match skipWs rest with
        | [] => none
        | d :: rest2 =>
          if d = rbrace then some (.obj [], rest2)
          else
            (parseMembers fuel (d :: rest2)).map
              (fun p => (.obj (p.1.foldl (fun acc kv => insertKV acc kv.1 kv.2) []), p.2))
      else if c = '[' then
        match skipWs rest with
        | [] => none
        | d :: rest2 =>
          if d = ']' then some (.arr [], rest2)
          else (parseElems fuel (d :: rest2)).map (fun p => (.arr p.1, p.2))
      else if c = 't' then
        match rest with
        | 'r' :: 'u' :: 'e' :: r => some (.bool true, r)
        | _ => none
      else if c = 'f' then
        match rest with
        | 'a' :: 'l' :: 's' :: 'e' :: r => some (.bool false, r)
        | _ => none
      else if c = 'n' then
        match rest with
        | 'u' :: 'l' :: 'l' :: r => some (.null, r)
        | _ => none
      else parseNumber (c :: rest)

/-- Comma-separated array elements up to the closing bracket. -/
def parseElems : Nat → List Char → Option (List Json × List Char)
  | 0, _ => none
  | fuel + 1, cs => do
    let (v, r) ← parseValue fuel cs
    match skipWs r with
    | ',' :: r2 => (parseElems fuel r2).map (fun p => (v :: p.1, p.2))
    | ']' :: r2 => some ([v], r2)
    | _ => none

/-- Comma-separated object members up to the closing brace. -/
def parseMembers : Nat → List Char → Option (List (String × Json) × List Char)
  | 0, _ => none
  | fuel + 1, cs =>
    match skipWs cs with
    | c :: rest =>
      if c = '\"' then do
        let (kcs, r1) ← parseStrChars rest
        match skipWs r1 with
        | ':' :: r2 => do
          let (v, r3) ← parseValue fuel r2
          match skipWs r3 with
          | ',' :: r4 =>
            (parseMembers fuel r4).map (fun p => ((String.mk kcs, v) :: p.1, p.2))
          | d :: r4 =>
            if d = rbrace then some ([(String.mk kcs, v)], r4) else none
          | [] => none
        | _ => none
      else none
    | [] => none

end

/-- Model of Python `json.loads`: parse one value and require only
whitespace to remain. -/
def jsonLoads (cs : List Char) : Option Json :=
  match parseValue (cs.length + 1) cs with
  | some (j, rest) => if skipWs rest = [] then some j else none
  | none => none

/-- A single quote character as a string (used by the Python `repr` model). -/
def squote : String := String.singleton (Char.ofNat 39)

mutual

/-- Python `repr` of a parsed JSON value (string quoting is modelled
without escape handling; containers render in Python literal syntax). -/
def pyRepr : Json → String
  | .null => "None"
  | .bool true => "True"
  | .bool false => "False"
  | .num n => toString n
  | .str s => squote ++ s ++ squote
  | .arr xs => "[" ++ pyReprList xs ++ "]"
  | .obj kvs => "\x7b" ++ pyReprObj kvs ++ "\x7d"

/-- Comma-separated reprs of list elements. -/
def pyReprList : List Json → String
  | [] => ""
  | [x] => pyRepr x
  | x :: y :: xs => pyRepr x ++ ", " ++ pyReprList (y :: xs)

/-- Comma-separated reprs of dict items. -/
def pyReprObj : List (String × Json) → String
  | [] => ""
  | [(k, v)] => squote ++ k ++ squote ++ ": " ++ pyRepr v
  | (k, v) :: q :: kvs =>
    squote ++ k ++ squote ++ ": " ++ pyRepr v ++ ", " ++ pyReprObj (q :: kvs)

end

/-- Python `str` of a parsed JSON value: a string renders as itself,
everything else as its repr. -/
def pyStr : Json → String
  | .str s => s
  | j => pyRepr j

/-- Python `x or d` for an optional JSON value against a JSON default. -/
def pyOrJ (v : Option Json) (d : Json) : Json :=
  match v with
  | some x => if x.truthy then x else d
  | none => d

/-- The static catalog `fashion_data` from app.py. -/
def fashion_data : List (String × List String) :=
  [("casual", ["Jeans + T-shirt", "Sneakers + Hoodie", "Denim Jacket + White Tee"]),
   ("formal", ["Suit + Formal Shoes", "Blazer + Trousers", "Saree / Kurti Set"]),
   ("party", ["Black Dress", "Stylish Kurti + Jewelry", "Designer Shirt + Jeans"]),
   ("traditional", ["Saree", "Lehenga", "Kurta Pyjama"])]

/-- Python `sum(fashion_data.values(), [])`: concatenation of all catalog lists. -/
def allValues : List String := (fashion_data.map Prod.snd).flatten

/-- Python `fashion_data.get(k, [])` for a string key. -/
def catalogGet (k : String) : List String :=
  ((fashion_data.find? (fun p => p.1 == k)).map Prod.snd).getD []

/-- Exceptions that can escape the embedded Python code. -/
inductive PyErr where
  | runtimeError : PyErr
  | requestError : PyErr
  | attributeError : PyErr
  | typeError : PyErr

/-- Line 106 of app.py:
`candidates = fashion_data.get(style, []) if style else sum(fashion_data.values(), [])`.
The style is the raw JSON value of the request field (or `none`); a
truthy list or dict style is unhashable and raises `TypeError`, any
other truthy value is looked up in the catalog (only string keys can
match), and a falsy or absent style selects the concatenation of all
catalog lists. -/
def candidatesForJ (style : Option Json) : Except PyErr (List String) :=
  if optTruthy style then
    match style with
    | some (.arr _) => .error .typeError
    | some (.obj _) => .error .typeError
    | some (.str s) => .ok (catalogGet s)
    | some _ => .ok []
    | none => .ok []
  else .ok allValues

/-- Deduplication preserving first occurrence, with an accumulator of
already seen elements (Python `list(dict.fromkeys(candidates))`). -/
def dedupAux : List String → List String → List String
  | [], _ => []
  | x :: xs, seen =>
    if x ∈ seen then dedupAux xs seen else x :: dedupAux xs (x :: seen)

/-- Python `list(dict.fromkeys(l))`: deduplicate keeping the first
occurrence of each element. -/
def pyDedup (l : List String) : List String := dedupAux l []

/-- A single recommendation entry; `color` is the raw JSON value placed
in the dict (the caller-supplied color or a string default). -/
structure Recommendation where
  outfit : String
  color : Json
  explanation : String

/-- One loop iteration of the fallback generator (lines 111-125 of
app.py): index `i` draws from the shuffled pool when present, otherwise
emits the smart-casual placeholder. -/
def mkRecAt (cands : List String) (color occasion : Option Json) (i : Nat) :
    Recommendation :=
  match cands.get? i with
  | some outfit =>
    let sc := pyOrJ color (.str "neutral/black")
    { outfit := outfit
      color := sc
      explanation := outfit ++ " in " ++ pyStr sc ++ " suits " ++
        pyStr (pyOrJ occasion (.str "many occasions")) ++
        " by keeping the look polished and appropriate." }
  | none =>
    let sc := pyOrJ color (.str "neutral")
    { outfit := "Smart Casual Outfit"
      color := sc
      explanation := "A " ++ pyStr sc ++ " smart casual outfit works well for " ++
        pyStr (pyOrJ occasion (.str "general")) ++ " settings." }

/-- The three fallback recommendations built from the shuffled pool. -/
def fallbackRecs (cands : List String) (color occasion : Option Json) :
    List Recommendation :=
  (List.range 3).map (mkRecAt cands color occasion)

/-- The constant top tip attached to every fallback result. -/
def top_tip : String := "Choose one statement accessory and keep the rest minimal."

/-- JSON rendering of a recommendation entry. -/
def recJson (r : Recommendation) : Json :=
  .obj [("outfit", .str r.outfit), ("color", r.color),
        ("explanation", .str r.explanation)]

/-- The fallback response body (lines 127-132 of app.py). -/
def fallbackResponse (cands : List String) (color occasion : Option Json) : Json :=
  .obj [("recommendations", .arr ((fallbackRecs cands color occasion).map recJson)),
        ("top_tip", .str top_tip)]

/-- Process configuration: `HF_API_KEY` and `HF_MODEL` from the environment. -/
structure HFConfig where
  apiKey : Option String
  modelId : Option String

/-- Truthiness of an optional environment string. -/
def strTruthy : Option String → Bool
  | some s => !s.isEmpty
  | none => false

/-- Outcome of the HTTP POST to the inference endpoint: an exception
(network failure, timeout, or non-success status via
`raise_for_status`) or a response body. -/
inductive HTTPResult where
  | failure : HTTPResult
  | success (body : String) : HTTPResult

/-- Extraction of the generated text from a decoded HF payload
(lines 49-57 of app.py).  The Python `or` chains are truthiness-based,
and the returned value is whatever JSON value the chain selects. -/
def extractFromData (data : Json) : Json :=
  match data with
  | .arr (first :: _) =>
    match first with
    | .obj kvs =>
      pyOrJ (jget kvs "generated_text")
        (pyOrJ (jget kvs "text") (.str (pyStr first)))
    | _ => .str (pyStr first)
  | .obj kvs =>
    pyOrJ (jget kvs "generated_text")
      (pyOrJ (jget kvs "text") (.str (pyStr (.obj kvs))))
  | d => .str (pyStr d)

/-- Lines 43-57 of app.py: decode the response body with `resp.json()`
and extract the text; an unparseable body is returned unmodified. -/
def extractText (body : String) : Json :=
  match jsonLoads body.toList with
  | none => .str body
  | some data => extractFromData data

/-- The model client `call_hf_model` (lines 27-57 of app.py): raises
`RuntimeError` when the key or model is unset or empty, before any
network interaction; propagates transport failures; otherwise extracts
the generated text from the response body. -/
def call_hf_model (cfg : HFConfig) (net : HTTPResult) : Except PyErr Json :=
  if !strTruthy cfg.apiKey || !strTruthy cfg.modelId then .error .runtimeError
  else
    match net with
    | .failure => .error .requestError
    | .success body => .ok (extractText body)

/-- Lines 84-95 of app.py: try a direct `json.loads`; on failure,
extract the substring between the first opening brace and the last
closing brace and try again. -/
def pyFind (cs : List Char) (c : Char) : Option Nat := cs.findIdx? (fun d => d == c)

/-- Python `s.rfind(c)` as an optional index of the last occurrence. -/
def pyRfind (cs : List Char) (c : Char) : Option Nat :=
  match cs.reverse.findIdx? (fun d => d == c) with
  | some i => some (cs.length - 1 - i)
  | none => none

/-- The response parser of the handler (lines 84-95 of app.py). -/
def parseModelOutput (s : String) : Option Json :=
  match jsonLoads s.toList with
  | some j => some j
  | none =>
    match pyFind s.toList lbrace, pyRfind s.toList rbrace with
    | some st, some en =>
      if st < en then jsonLoads ((s.toList.drop st).take (en + 1 - st)) else none
    | _, _ => none

/-- Line 97 of app.py:
`if parsed and isinstance(parsed, dict) and parsed.get(...)`. -/
def accepted (p : Option Json) : Bool :=
  match p with
  | some j =>
    j.truthy &&
      (match j with
       | .obj kvs =>
         (match jget kvs "recommendations" with
          | some v => v.truthy
          | none => false)
       | _ => false)
  | none => false

/-- The fallback tail of the handler (lines 104-132 of app.py),
parameterised by the shuffle outcome. -/
def fallbackStep (kvs : List (String × Json))
    (shuffle : List String → List String) : Except PyErr Json :=
  match candidatesForJ (jget kvs "style") with
  | .error e => .error e
  | .ok cands =>
    .ok (fallbackResponse (shuffle (pyDedup cands))
      (jget kvs "color") (jget kvs "occasion"))

/-- The guarded model branch of the handler (lines 71-102 of app.py):
`some` of the parsed mapping when the model is configured, the call
returned a string, and the parse is accepted; `none` (fall through to
the fallback) otherwise.  A raised call or a non-string return (whose
re-parse raises inside the guarded region) is swallowed by the outer
`except`. -/
def modelStep (cfg : HFConfig) (hfOutcome : Except PyErr Json) : Option Json :=
  if strTruthy cfg.apiKey && strTruthy cfg.modelId then
    match hfOutcome with
    | .error _ => none
    | .ok (.str hf_text) =>
      let parsed := parseModelOutput hf_text
      if accepted parsed then parsed else none
    | .ok _ => none
  else none

/-- The handler body given the outcome of `call_hf_model`
(lines 64-132 of app.py).  A non-dict request body raises
`AttributeError` at `data.get`; an accepted parse is returned verbatim;
everything else takes the fallback path. -/
def recommendCore (cfg : HFConfig) (body : Json)
    (hfOutcome : Except PyErr Json)
    (shuffle : List String → List String) : Except PyErr Json :=
  match body with
  | .obj kvs =>
    match modelStep cfg hfOutcome with
    | some j => .ok j
    | none => fallbackStep kvs shuffle
  | _ => .error .attributeError

/-- The handler `recommend` with the remote call composed in: the
call outcome is `call_hf_model` applied to the network result. -/
def recommend (cfg : HFConfig) (body : Json) (net : HTTPResult)
    (shuffle : List String → List String) : Except PyErr Json :=
  recommendCore cfg body (call_hf_model cfg net) shuffle

/-- A style value that does not raise at the catalog lookup: absent,
falsy, or a hashable (non-container) JSON value. -/
def styleOk : Option Json → Bool
  | some (.arr xs) => xs.isEmpty
  | some (.obj kvs) => kvs.isEmpty
  | _ => true

/-- Whether a handler outcome is a normal return (no exception). -/
def exOk : Except PyErr Json → Bool
  | .ok _ => true
  | .error _ => false

/-- Whether a JSON value is a sequence. -/
def Json.isArr : Json → Bool
  | .arr _ => true
  | _ => false

/-- Length of the recommendations sequence of a response body
(zero when the field is absent or not a sequence). -/
def recsLen (j : Json) : Nat :=
  match jgetJ j "recommendations" with
  | some (.arr rs) => rs.length
  | _ => 0

/-- The well-formed model output from the spec examples. -/
def acceptExample : String :=
  "\x7b\"recommendations\":[\x7b\"outfit\":\"X\",\"color\":\"Y\",\"explanation\":\"Z\"\x7d],\"top_tip\":\"T\"\x7d"

/-- The parsed form of `acceptExample`. -/
def acceptedObj : Json :=
  .obj [("recommendations",
          .arr [.obj [("outfit", .str "X"), ("color", .str "Y"),
                      ("explanation", .str "Z")]]),
        ("top_tip", .str "T")]

/-- The spec example of JSON embedded in surrounding prose. -/
def embedExample : String :=
  "prefix " ++ acceptExample ++ " suffix"

/-! Helper lemmas shared by the claim theorems. -/

theorem jget_isEmpty_false {kvs : List (String × Json)} {k : String} {v : Json}
    (h : jget kvs k = some v) : kvs.isEmpty = false := by
  cases kvs with
  | nil => simp [jget] at h
  | cons a l => rfl

theorem accepted_iff (p : Option Json) :
    accepted p = true ↔
      ∃ kvs v, p = some (Json.obj kvs) ∧ jget kvs "recommendations" = some v ∧
        v.truthy = true := by
  constructor
  · intro h
    cases p with
    | none => simp [accepted] at h
    | some j =>
      cases j with
      | obj kvs =>
        cases hr : jget kvs "recommendations" with
        | none => simp [accepted, hr] at h
        | some v =>
          simp [accepted, hr] at h
          exact ⟨kvs, v, rfl, hr, h.2⟩
      | null => simp [accepted] at h
      | bool b => simp [accepted] at h
      | num n => simp [accepted] at h
      | str s => simp [accepted] at h
      | arr xs => simp [accepted] at h
  · rintro ⟨kvs, v, rfl, hr, hv⟩
    have hne := jget_isEmpty_false hr
    simp [accepted, hr, hne, Json.truthy]
    exact hv

theorem modelStep_some_accepted {cfg : HFConfig} {hf : Except PyErr Json} {j : Json}
    (h : modelStep cfg hf = some j) : accepted (some j) = true := by
  unfold modelStep at h
  by_cases hc : (strTruthy cfg.apiKey && strTruthy cfg.modelId) = true
  · rw [if_pos hc] at h
    cases hf with
    | error e => simp at h
    | ok v =>
      cases v with
      | str t =>
        simp only at h
        by_cases ha : accepted (parseModelOutput t) = true
        · rw [if_pos ha] at h
          rw [h] at ha
          exact ha
        · rw [if_neg ha] at h
          simp at h
      | null => simp at h
      | bool b => simp at h
      | num n => simp at h
      | arr xs => simp at h
      | obj kvs => simp at h
  · rw [if_neg hc] at h
    simp at h

theorem modelStep_none_of_unset {cfg : HFConfig} (hf : Except PyErr Json)
    (h : cfg.apiKey = none ∨ cfg.modelId = none) : modelStep cfg hf = none := by
  unfold modelStep
  rcases h with h | h <;> rw [h] <;> simp [strTruthy]

theorem fallbackRecs_length (cands : List String) (color occasion : Option Json) :
    (fallbackRecs cands color occasion).length = 3 := by
  simp [fallbackRecs]

theorem fallbackStep_shape {kvs : List (String × Json)}
    {shuffle : List String → List String} {j : Json}
    (h : fallbackStep kvs shuffle = Except.ok j) :
    ∃ cands, j = fallbackResponse cands (jget kvs "color") (jget kvs "occasion") := by
  unfold fallbackStep at h
  cases hc : candidatesForJ (jget kvs "style") with
  | error e => rw [hc] at h; simp at h
  | ok cands =>
    rw [hc] at h
    simp only [Except.ok.injEq] at h
    exact ⟨shuffle (pyDedup cands), h.symm⟩

theorem jgetJ_fallbackResponse_recs (cands : List String)
    (color occasion : Option Json) :
    jgetJ (fallbackResponse cands color occasion) "recommendations" =
      some (Json.arr ((fallbackRecs cands color occasion).map recJson)) := rfl

theorem jgetJ_fallbackResponse_tip (cands : List String)
    (color occasion : Option Json) :
    jgetJ (fallbackResponse cands color occasion) "top_tip" =
      some (Json.str top_tip) := rfl

theorem recsLen_fallbackResponse (cands : List String)
    (color occasion : Option Json) :
    recsLen (fallbackResponse cands color occasion) = 3 := by
  simp [recsLen, jgetJ_fallbackResponse_recs, fallbackRecs_length]

theorem candidatesForJ_ok_of_styleOk {o : Option Json} (h : styleOk o = true) :
    ∃ l, candidatesForJ o = Except.ok l := by
  cases o with
  | none => exact ⟨allValues, rfl⟩
  | some j =>
    cases j with
    | null => exact ⟨allValues, rfl⟩
    | bool b =>
      cases b with
      | true => exact ⟨[], rfl⟩
      | false => exact ⟨allValues, rfl⟩
    | num n =>
      by_cases hn : (n != 0) = true
      · exact ⟨[], by simp [candidatesForJ, optTruthy, Json.truthy, hn]⟩
      · exact ⟨allValues, by simp [candidatesForJ, optTruthy, Json.truthy, hn]⟩
    | str s =>
      by_cases hs : s.isEmpty = true
      · exact ⟨allValues, by simp [candidatesForJ, optTruthy, Json.truthy, hs]⟩
      · exact ⟨catalogGet s, by simp [candidatesForJ, optTruthy, Json.truthy, hs]⟩
    | arr xs =>
      simp [styleOk] at h
      exact ⟨allValues, by simp [candidatesForJ, optTruthy, Json.truthy, h]⟩
    | obj kvs =>
      simp [styleOk] at h
      exact ⟨allValues, by simp [candidatesForJ, optTruthy, Json.truthy, h]⟩

theorem dedupAux_nodup_disjoint (l : List String) :
    ∀ seen, (dedupAux l seen).Nodup ∧ ∀ x ∈ dedupAux l seen, x ∉ seen := by
  induction l with
  | nil => intro seen; simp [dedupAux]
  | cons x xs ih =>
    intro seen
    by_cases hx : x ∈ seen
    · simpa [dedupAux, hx] using ih seen
    · have h2 := ih (x :: seen)
      have hd : dedupAux (x :: xs) seen = x :: dedupAux xs (x :: seen) := by
        simp [dedupAux, hx]
      rw [hd]
      constructor
      · rw [List.nodup_cons]
        refine ⟨fun hmem => ?_, h2.1⟩
        exact (h2.2 x hmem) (List.mem_cons_self x _)
      · intro y hy
        rcases List.mem_cons.mp hy with rfl | hy2
        · exact hx
        · intro hseen
          exact (h2.2 y hy2) (List.mem_cons_of_mem _ hseen)

theorem pyDedup_nodup (l : List String) : (pyDedup l).Nodup :=
  (dedupAux_nodup_disjoint l []).1

theorem fallbackRecs_eq (cands : List String) (color occasion : Option Json) :
    fallbackRecs cands color occasion =
      [mkRecAt cands color occasion 0, mkRecAt cands color occasion 1,
       mkRecAt cands color occasion 2] := rfl

theorem fallbackRecs_get?_cases (cands : List String) (color occasion : Option Json)
    {i : Nat} {r : Recommendation}
    (h : (fallbackRecs cands color occasion).get? i = some r) :
    i < 3 ∧ r = mkRecAt cands color occasion i := by
  rw [fallbackRecs_eq] at h
  rcases i with _ | _ | _ | i
  · exact ⟨by norm_num, (Option.some.injEq _ _ ▸ h.symm : _)⟩
  · exact ⟨by norm_num, (Option.some.injEq _ _ ▸ h.symm : _)⟩
  · exact ⟨by norm_num, (Option.some.injEq _ _ ▸ h.symm : _)⟩
  · simp [List.get?] at h

theorem mkRecAt_color_of_truthy {c : Json} (hc : c.truthy = true)
    (cands : List String) (occasion : Option Json) (i : Nat) :
    (mkRecAt cands (some c) occasion i).color = c := by
  unfold mkRecAt
  cases cands.get? i <;> simp [pyOrJ, hc]

theorem mkRecAt_color_none (cands : List String) (occasion : Option Json) (i : Nat) :
    (mkRecAt cands none occasion i).color =
      if i < cands.length then Json.str "neutral/black" else Json.str "neutral" := by
  unfold mkRecAt
  cases h : cands.get? i with
  | some o =>
    obtain ⟨hlt, -⟩ := List.get?_eq_some.mp h
    simp [pyOrJ, hlt]
  | none =>
    have hge : cands.length ≤ i := List.get?_eq_none.mp h
    simp [pyOrJ, Nat.not_lt.mpr hge]

theorem mkRecAt_outfit_of_ge {cands : List String} {i : Nat}
    (h : cands.length ≤ i) (color occasion : Option Json) :
    (mkRecAt cands color occasion i).outfit = "Smart Casual Outfit" := by
  unfold mkRecAt
  rw [List.get?_eq_none.mpr h]

/-! Claim theorems. -/

/-- C1 (counterexample): with the supplied unknown style "sporty" the
candidate pool of the fallback generator is empty, not the
concatenation of all catalog lists (which is non-empty even after
deduplication), contradicting the claim. -/
theorem C1_counterexample :
    candidatesForJ (some (Json.str "sporty")) = Except.ok [] ∧
    pyDedup allValues ≠ ([] : List String) ∧
    allValues ≠ ([] : List String) :=
  ⟨rfl, by decide, by decide⟩

/-- C1 (amended): when a non-empty style string is supplied but is not
a catalog key, the candidate pool is empty (so all three emitted
recommendations are the placeholder); a known catalog key selects that
style list; only an absent (or falsy) style selects the concatenation
of all catalog lists. -/
theorem C1_amended_pool :
    (∀ s : String, s ≠ "" → fashion_data.find? (fun p => p.1 == s) = none →
      candidatesForJ (some (Json.str s)) = Except.ok [] ∧
      ∀ color occasion,
        (fallbackRecs [] color occasion).map Recommendation.outfit =
          ["Smart Casual Outfit", "Smart Casual Outfit", "Smart Casual Outfit"]) ∧
    (∀ (s : String) (p : String × List String), s ≠ "" →
      fashion_data.find? (fun q => q.1 == s) = some p →
      candidatesForJ (some (Json.str s)) = Except.ok p.2) ∧
    candidatesForJ none = Except.ok allValues := by
  refine ⟨?_, ?_, rfl⟩
  · intro s hs hf
    have hse : s.isEmpty = false := by
      rw [Bool.eq_false_iff]
      intro he
      exact hs ((String.isEmpty_iff s).mp he)
    refine ⟨?_, fun color occasion => rfl⟩
    simp [candidatesForJ, optTruthy, Json.truthy, hse, catalogGet, hf]
  · intro s p hs hf
    have hse : s.isEmpty = false := by
      rw [Bool.eq_false_iff]
      intro he
      exact hs ((String.isEmpty_iff s).mp he)
    simp [candidatesForJ, optTruthy, Json.truthy, hse, catalogGet, hf]

/-- C1 witness: the amended theorem applied at the concrete unknown
style "sporty". -/
theorem C1_amended_pool_witness :
    candidatesForJ (some (Json.str "sporty")) = Except.ok [] :=
  (C1_amended_pool.1 "sporty" (by decide) rfl).1

/-- C2: for every candidate pool (of any size, including empty) and any
color and occasion, the fallback generator emits exactly 3
recommendations, the response carries the fixed constant top tip, and
every position beyond the pool length is filled by the Smart Casual
Outfit placeholder. -/
theorem C2_fallback_shape :
    (∀ cands color occasion, (fallbackRecs cands color occasion).length = 3) ∧
    (∀ cands color occasion,
      jgetJ (fallbackResponse cands color occasion) "top_tip" =
        some (Json.str "Choose one statement accessory and keep the rest minimal.")) ∧
    (∀ cands color occasion i r, cands.length ≤ i →
      (fallbackRecs cands color occasion).get? i = some r →
      r.outfit = "Smart Casual Outfit") := by
  refine ⟨fallbackRecs_length, fun cands color occasion => rfl, ?_⟩
  intro cands color occasion i r hge h
  obtain ⟨-, rfl⟩ := fallbackRecs_get?_cases cands color occasion h
  exact mkRecAt_outfit_of_ge hge color occasion

/-- C2 witness: the placeholder conjunct applied to the empty pool at
index 0. -/
theorem C2_fallback_shape_witness :
    (⟨"Smart Casual Outfit", Json.str "neutral",
      "A neutral smart casual outfit works well for general settings."⟩ :
        Recommendation).outfit = "Smart Casual Outfit" :=
  C2_fallback_shape.2.2 [] none none 0 _ (Nat.le_refl 0) rfl

/-- C3: with the supplied color "Red" every fallback recommendation has
color "Red"; with no color, a recommendation drawn from the pool has
color "neutral/black" and a placeholder has color "neutral". -/
theorem C3_fallback_colors :
    (∀ cands occasion,
      (fallbackRecs cands (some (Json.str "Red")) occasion).map
          Recommendation.color =
        [Json.str "Red", Json.str "Red", Json.str "Red"]) ∧
    (∀ cands occasion i r, (fallbackRecs cands none occasion).get? i = some r →
      r.color = if i < cands.length then Json.str "neutral/black"
                else Json.str "neutral") := by
  constructor
  · intro cands occasion
    rw [fallbackRecs_eq]
    simp [mkRecAt_color_of_truthy (show (Json.str "Red").truthy = true from rfl)]
  · intro cands occasion i r h
    obtain ⟨-, rfl⟩ := fallbackRecs_get?_cases cands none occasion h
    exact mkRecAt_color_none cands occasion i

/-- C3 witness: the no-color conjunct applied to the empty pool at
index 0, where the placeholder color "neutral" is emitted. -/
theorem C3_fallback_colors_witness :
    (⟨"Smart Casual Outfit", Json.str "neutral",
      "A neutral smart casual outfit works well for general settings."⟩ :
        Recommendation).color =
      if 0 < ([] : List String).length then Json.str "neutral/black"
      else Json.str "neutral" :=
  C3_fallback_colors.2 [] none 0 _ rfl

/-- C4: the parser accepts exactly the mappings whose recommendations
field is present and non-empty (truthy); the spec example payload is
accepted and returned verbatim by the handler; the strings "not json"
and a mapping without recommendations are rejected; and every rejection
sends the handler down the fallback path. -/
theorem C4_parser_acceptance :
    (∀ p : Option Json, accepted p = true ↔
      ∃ kvs v, p = some (Json.obj kvs) ∧ jget kvs "recommendations" = some v ∧
        v.truthy = true) ∧
    parseModelOutput acceptExample = some acceptedObj ∧
    accepted (parseModelOutput acceptExample) = true ∧
    accepted (parseModelOutput "not json") = false ∧
    accepted (parseModelOutput "\x7b\"foo\": 1\x7d") = false ∧
    (∀ cfg kvs shuffle,
      strTruthy cfg.apiKey = true → strTruthy cfg.modelId = true →
      recommendCore cfg (Json.obj kvs) (Except.ok (Json.str acceptExample))
          shuffle =
        Except.ok acceptedObj) ∧
    (∀ cfg kvs shuffle t, accepted (parseModelOutput t) = false →
      recommendCore cfg (Json.obj kvs) (Except.ok (Json.str t)) shuffle =
        fallbackStep kvs shuffle) := by
  refine ⟨accepted_iff, rfl, rfl, rfl, rfl, ?_, ?_⟩
  · intro cfg kvs shuffle h1 h2
    unfold recommendCore modelStep
    rw [h1, h2]
    rfl
  · intro cfg kvs shuffle t h
    by_cases hc : (strTruthy cfg.apiKey && strTruthy cfg.modelId) = true
    · simp [recommendCore, modelStep, hc, h]
    · simp [recommendCore, modelStep, hc]

/-- C4 witness: the verbatim-return conjunct applied to a concrete
configured handler. -/
theorem C4_parser_acceptance_witness :
    recommendCore ⟨some "k", some "m"⟩ (Json.obj [])
        (Except.ok (Json.str acceptExample)) id =
      Except.ok acceptedObj :=
  C4_parser_acceptance.2.2.2.2.2.1 ⟨some "k", some "m"⟩ [] id rfl rfl

/-- C5: when the whole model output fails to parse and a first opening
brace at index st precedes a last closing brace at index en, the parser
attempts exactly the substring from st to en inclusive; the spec
example with surrounding prose is recovered this way. -/
theorem C5_substring_extraction :
    (∀ s : String, jsonLoads s.toList = none →
      ∀ st en, pyFind s.toList lbrace = some st →
        pyRfind s.toList rbrace = some en → st < en →
        parseModelOutput s = jsonLoads ((s.toList.drop st).take (en + 1 - st))) ∧
    parseModelOutput embedExample = some acceptedObj := by
  constructor
  · intro s h st en hf hr hlt
    simp only [parseModelOutput, h, hf, hr]
    rw [if_pos hlt]
  · rfl

/-- C5 witness: the extraction conjunct applied to a concrete input
with junk on both sides of the braces. -/
theorem C5_substring_extraction_witness :
    parseModelOutput "xx\x7b\"a\":1\x7dyy" =
      jsonLoads ((("xx\x7b\"a\":1\x7dyy" : String).toList.drop 2).take 7) :=
  C5_substring_extraction.1 "xx\x7b\"a\":1\x7dyy" rfl 2 8 rfl rfl (by decide)

/-- C6 (counterexample): a request whose JSON body is a sequence rather
than a mapping raises AttributeError at the first field access, so not
every request body produces a 200 response. -/
theorem C6_counterexample :
    recommendCore ⟨none, none⟩ (Json.arr [])
        (Except.error PyErr.runtimeError) id =
      Except.error PyErr.attributeError := rfl

/-- C6 (amended): every request whose body is a JSON mapping and whose
style field is absent, falsy, or a hashable value returns normally
(HTTP 200 with a JSON body); a body that is not a mapping raises
AttributeError, which the framework surfaces as an error status. -/
theorem C6_amended_availability :
    (∀ cfg kvs hfOutcome shuffle, styleOk (jget kvs "style") = true →
      exOk (recommendCore cfg (Json.obj kvs) hfOutcome shuffle) = true) ∧
    (∀ cfg body hfOutcome shuffle, (∀ kvs, body ≠ Json.obj kvs) →
      recommendCore cfg body hfOutcome shuffle =
        Except.error PyErr.attributeError) := by
  constructor
  · intro cfg kvs hf shuffle hok
    cases hms : modelStep cfg hf with
    | some j => simp [recommendCore, hms, exOk]
    | none =>
      obtain ⟨l, hl⟩ := candidatesForJ_ok_of_styleOk hok
      simp [recommendCore, hms, fallbackStep, hl, exOk]
  · intro cfg body hf shuffle hne
    cases body with
    | obj kvs => exact absurd rfl (hne kvs)
    | null => rfl
    | bool b => rfl
    | num n => rfl
    | str s => rfl
    | arr xs => rfl

/-- C6 witness: the normal-return conjunct applied to an unconfigured
handler with an empty mapping body. -/
theorem C6_amended_availability_witness :
    exOk (recommendCore ⟨none, none⟩ (Json.obj [])
        (Except.error PyErr.runtimeError) id) = true :=
  C6_amended_availability.1 ⟨none, none⟩ [] (Except.error PyErr.runtimeError)
    id rfl

/-- C7 (counterexample): a model output whose recommendations field is
the number 7 is truthy, hence accepted and returned verbatim, so the
field of the response is not a sequence. -/
theorem C7_counterexample :
    recommendCore ⟨some "k", some "m"⟩ (Json.obj [])
        (Except.ok (Json.str "\x7b\"recommendations\": 7\x7d")) id =
      Except.ok (Json.obj [("recommendations", Json.num 7)]) ∧
    Json.isArr (Json.num 7) = false := ⟨rfl, rfl⟩

/-- C7 (amended): every normal response of the handler carries a truthy
(present and non-empty) recommendations field; on the fallback path
that field is a sequence of length exactly 3. -/
theorem C7_amended_recommendations :
    (∀ cfg body hf shuffle j,
      recommendCore cfg body hf shuffle = Except.ok j →
      Option.any Json.truthy (jgetJ j "recommendations") = true) ∧
    (∀ kvs shuffle j, fallbackStep kvs shuffle = Except.ok j →
      recsLen j = 3) := by
  constructor
  · intro cfg body hf shuffle j h
    cases body with
    | obj kvs =>
      simp only [recommendCore] at h
      cases hms : modelStep cfg hf with
      | some j0 =>
        rw [hms] at h
        simp only [Except.ok.injEq] at h
        have ha := modelStep_some_accepted hms
        rw [h] at ha
        obtain ⟨kvs2, v, hj, hr, hv⟩ := (accepted_iff (some j)).mp ha
        obtain rfl := Option.some.inj hj
        simp [jgetJ, hr, Option.any, hv]
      | none =>
        rw [hms] at h
        obtain ⟨cands, rfl⟩ := fallbackStep_shape h
        rw [jgetJ_fallbackResponse_recs, fallbackRecs_eq]
        rfl
    | null => simp [recommendCore] at h
    | bool b => simp [recommendCore] at h
    | num n => simp [recommendCore] at h
    | str s => simp [recommendCore] at h
    | arr xs => simp [recommendCore] at h
  · intro kvs shuffle j h
    obtain ⟨cands, rfl⟩ := fallbackStep_shape h
    exact recsLen_fallbackResponse _ _ _

/-- C7 witness: the truthiness conjunct applied to a configured handler
that accepts the spec example payload. -/
theorem C7_amended_recommendations_witness :
    Option.any Json.truthy (jgetJ acceptedObj "recommendations") = true :=
  C7_amended_recommendations.1 ⟨some "k", some "m"⟩ (Json.obj [])
    (Except.ok (Json.str acceptExample)) id acceptedObj rfl

/-- C8 (counterexample): with the payload
`[ \x7b"generated_text": "", "text": "hi"\x7d ]` the generated_text
field is present, yet the extraction returns the text field because the
chain tests truthiness, not presence. -/
theorem C8_counterexample :
    jget [("generated_text", Json.str ""), ("text", Json.str "hi")]
        "generated_text" = some (Json.str "") ∧
    extractFromData (Json.arr [Json.obj
        [("generated_text", Json.str ""), ("text", Json.str "hi")]]) =
      Json.str "hi" ∧
    Json.str "hi" ≠ Json.str "" := ⟨rfl, rfl, by simp⟩

/-- C8 (amended): the extraction prefers a truthy generated_text field,
then a truthy text field, and otherwise falls back to the string
rendering of the first element (or of the single mapping); a response
body that does not parse as JSON is returned unmodified. -/
theorem C8_amended_extraction :
    (∀ kvs rest v, jget kvs "generated_text" = some v → v.truthy = true →
      extractFromData (Json.arr (Json.obj kvs :: rest)) = v) ∧
    (∀ kvs rest v, Option.any Json.truthy (jget kvs "generated_text") = false →
      jget kvs "text" = some v → v.truthy = true →
      extractFromData (Json.arr (Json.obj kvs :: rest)) = v) ∧
    (∀ kvs rest, Option.any Json.truthy (jget kvs "generated_text") = false →
      Option.any Json.truthy (jget kvs "text") = false →
      extractFromData (Json.arr (Json.obj kvs :: rest)) =
        Json.str (pyStr (Json.obj kvs))) ∧
    (∀ kvs v, jget kvs "generated_text" = some v → v.truthy = true →
      extractFromData (Json.obj kvs) = v) ∧
    (∀ kvs v, Option.any Json.truthy (jget kvs "generated_text") = false →
      jget kvs "text" = some v → v.truthy = true →
      extractFromData (Json.obj kvs) = v) ∧
    (∀ kvs, Option.any Json.truthy (jget kvs "generated_text") = false →
      Option.any Json.truthy (jget kvs "text") = false →
      extractFromData (Json.obj kvs) =
        Json.str (pyStr (Json.obj kvs))) ∧
    (∀ body : String, jsonLoads body.toList = none →
      extractText body = Json.str body) := by
  have hfalsy : ∀ (o : Option Json), Option.any Json.truthy o = false →
      ∀ d : Json, pyOrJ o d = d := by
    intro o ho d
    cases o with
    | none => rfl
    | some w =>
      have hw : w.truthy = false := by simpa [Option.any] using ho
      simp [pyOrJ, hw]
  refine ⟨?_, ?_, ?_, ?_, ?_, ?_, ?_⟩
  · intro kvs rest v hgt hv
    simp [extractFromData, pyOrJ, hgt, hv]
  · intro kvs rest v hany ht hv
    simp only [extractFromData]
    rw [hfalsy _ hany]
    simp [pyOrJ, ht, hv]
  · intro kvs rest hany1 hany2
    simp [extractFromData, hfalsy _ hany1, hfalsy _ hany2]
  · intro kvs v hgt hv
    simp [extractFromData, pyOrJ, hgt, hv]
  · intro kvs v hany ht hv
    simp only [extractFromData]
    rw [hfalsy _ hany]
    simp [pyOrJ, ht, hv]
  · intro kvs hany1 hany2
    simp [extractFromData, hfalsy _ hany1, hfalsy _ hany2]
  · intro body h
    have h2 : jsonLoads body.data = none := h
    simp [extractText, h2]

/-- C8 witness: the raw-body conjunct applied to an unparseable
response body. -/
theorem C8_amended_extraction_witness :
    extractText "not json" = Json.str "not json" :=
  C8_amended_extraction.2.2.2.2.2.2 "not json" rfl

/-- C9: with the key or model unset the handler result does not depend
on the network at all and equals the fallback step, whose normal result
has exactly 3 recommendations and the constant top tip; and the model
client fails with the configuration error for every network outcome. -/
theorem C9_config_gate :
    (∀ cfg body net net2 shuffle, cfg.apiKey = none ∨ cfg.modelId = none →
      recommend cfg body net shuffle = recommend cfg body net2 shuffle) ∧
    (∀ cfg kvs hf shuffle, cfg.apiKey = none ∨ cfg.modelId = none →
      recommendCore cfg (Json.obj kvs) hf shuffle = fallbackStep kvs shuffle) ∧
    (∀ kvs shuffle j, fallbackStep kvs shuffle = Except.ok j →
      recsLen j = 3 ∧ jgetJ j "top_tip" = some (Json.str top_tip)) ∧
    (∀ cfg net, cfg.apiKey = none ∨ cfg.modelId = none →
      call_hf_model cfg net = Except.error PyErr.runtimeError) := by
  have hcall : ∀ cfg net, cfg.apiKey = none ∨ cfg.modelId = none →
      call_hf_model cfg net = Except.error PyErr.runtimeError := by
    intro cfg net h
    unfold call_hf_model
    rcases h with h | h <;> rw [h] <;> simp [strTruthy]
  refine ⟨?_, ?_, ?_, hcall⟩
  · intro cfg body net net2 shuffle h
    unfold recommend
    rw [hcall cfg net h, hcall cfg net2 h]
  · intro cfg kvs hf shuffle h
    unfold recommendCore
    rw [modelStep_none_of_unset hf h]
  · intro kvs shuffle j h
    obtain ⟨cands, rfl⟩ := fallbackStep_shape h
    exact ⟨recsLen_fallbackResponse _ _ _, jgetJ_fallbackResponse_tip _ _ _⟩

/-- C9 witness: the configuration-error conjunct applied to a config
with the key unset. -/
theorem C9_config_gate_witness :
    call_hf_model ⟨none, some "m"⟩ HTTPResult.failure =
      Except.error PyErr.runtimeError :=
  C9_config_gate.2.2.2 ⟨none, some "m"⟩ HTTPResult.failure (Or.inl rfl)

/-- C10: whenever the deduplicated pool has at least 3 elements, any
permutation of it (the shuffle) yields three recommendations with
pairwise distinct outfit strings. -/
theorem C10_distinct_outfits :
    ∀ (cands shuffled : List String) (color occasion : Option Json),
      shuffled.Perm (pyDedup cands) → 3 ≤ (pyDedup cands).length →
      ((fallbackRecs shuffled color occasion).map Recommendation.outfit).Nodup := by
  intro cands shuffled color occasion hperm hlen
  have hnd : shuffled.Nodup := hperm.nodup_iff.mpr (pyDedup_nodup cands)
  have hlen2 : 3 ≤ shuffled.length := by rw [hperm.length_eq]; exact hlen
  rcases shuffled with _ | ⟨a, _ | ⟨b, _ | ⟨c, rest⟩⟩⟩
  · simp at hlen2
  · simp at hlen2
  · simp only [List.length_cons, List.length_nil] at hlen2; omega
  · have hmap : ((fallbackRecs (a :: b :: c :: rest) color occasion).map
        Recommendation.outfit) = [a, b, c] := rfl
    rw [hmap]
    simp only [List.nodup_cons, List.mem_cons, List.mem_singleton,
      List.not_mem_nil, or_false] at hnd ⊢
    tauto

/-- C10 witness: the theorem applied with the identity shuffle to the
deduplicated union of all catalog lists, which has 12 elements. -/
theorem C10_distinct_outfits_witness :
    ((fallbackRecs (pyDedup allValues) none none).map
        Recommendation.outfit).Nodup :=
  C10_distinct_outfits allValues (pyDedup allValues) none none
    (List.Perm.refl _) (by decide)

end StyleSense
